import Mathlib

/-!
# Verification of the twterminator pipeline core

A shallow embedding of the core logic of `twterminator.go`: the retention
filter (`allowTweet`), the paginator (`loadTweets`), the deletion consumer
(`removeTweets`), the effective backlog-day resolution and cutoff computation
in `main`, and a small-step interleaving model of the four worker goroutines
and the `sync.WaitGroup` completion protocol.

Modelling conventions:
* Go `time.Time` instants are modelled as `Int` on a linear order; `t.Before u`
  is `t < u`.  The zero `time.Time` value (January 1, year 1 UTC), which
  `time.Parse` returns on failure, is `goZeroTime = 0`; instants computed from
  the current time are far above it.
* A tweet's `CreatedAt` string is abstracted by the outcome of parsing it:
  `createdAt : Option Int` is `some t` when the string parses to instant `t`
  and `none` when parsing fails (in which case `time.Parse` yields the zero
  value and `loadTweets`/`removeTweets` ignore the error).
* The remote fetch function is abstracted by a script: the list of results the
  successive `loader(params)` calls return, in call order.  `loadTweets` is
  run as a structural recursion over the script; a run that exhausts the
  script before the Go loop would break is reported with `closed = false`
  together with the loop state at that point.
* Identifiers (`tweet.Id`, `int64`) are `Int`; the realistic value ranges the
  claims quantify over are far from the `int64` bounds, so wrap-around is not
  modelled.
-/

/-- Go's zero `time.Time` instant (January 1, year 1 UTC), the value
`time.Parse` returns when parsing fails. -/
def goZeroTime : Int := 0

/-- The fields of `anaconda.Tweet` the core logic reads: `Id` and the parse
outcome of `CreatedAt` (`some t` = the string parses to instant `t`;
`none` = `time.Parse` fails and yields the zero time). -/
structure GoTweet where
  id : Int
  createdAt : Option Int
deriving DecidableEq, Repr

/-- The instant `time.Parse` produces for a tweet: the parsed instant, or the
zero time on parse failure (the error is discarded with `_`). -/
def parsedCreatedAt (tw : GoTweet) : Int :=
  tw.createdAt.getD goZeroTime

/-- `allowTweet` from twterminator.go: parse `CreatedAt` (failure yields the
zero time) and return whether the result is strictly before `maxDate`. -/
def allowTweet (tw : GoTweet) (maxDate : Int) : Bool :=
  if parsedCreatedAt tw < maxDate then true else false

/-- One result of a call to the fetch function (`loader(params)`):
a page of tweets, or an error. -/
inductive FetchResult where
  | ok (tweets : List GoTweet)
  | err
deriving DecidableEq, Repr

/-- The `max_id` request parameter: unset on the first call, and afterwards
the decremented running minimum identifier. -/
inductive Cursor where
  | unset
  | maxId (n : Int)
deriving DecidableEq, Repr

/-- `maxErrorCount` from twterminator.go. -/
def maxErrorCount : Nat := 3

/-- The running-minimum update in the page loop of `loadTweets`:
`if minID == 0 || tweet.Id < minID { minID = tweet.Id }`. -/
def updateMin (minID : Int) (id : Int) : Int :=
  if minID = 0 ∨ id < minID then id else minID

/-- The value of `minID` after the per-tweet loop of one page. -/
def processPage (minID : Int) (tweets : List GoTweet) : Int :=
  tweets.foldl (fun m t => updateMin m t.id) minID

/-- Observable outcome of running the `loadTweets` loop against a finite
script of fetch results.  `emitted` are the tweets sent on the stream, in
order; `callCursors` records the cursor (`max_id` parameter state) at each
fetch call, in call order; `visited` are all tweets of all processed pages in
iteration order; `closed` is whether the loop broke and `close(stream)` ran.
When the script is exhausted before the loop breaks (`closed = false`), the
`final*` fields give the loop state (`errorCount`, `minID`, cursor) at that
point; when `closed = true` they give the state at the break. -/
structure LoadResult where
  emitted : List GoTweet
  callCursors : List Cursor
  visited : List GoTweet
  closed : Bool
  finalErr : Nat
  finalMin : Int
  finalCursor : Cursor
deriving DecidableEq, Repr

/-- The `for` loop of `loadTweets`, run from loop state (`errorCount = ec`,
`minID`, current cursor) against a script of fetch results.  Mirrors the Go
control flow: on error, increment `errorCount` and break once it reaches
`maxErrorCount`, otherwise retry with the same params; on an empty page,
break; otherwise reset `errorCount`, scan the page updating `minID` and
emitting the tweets that pass `allowTweet`, then decrement `minID` and set
`max_id` to it. -/
def loadTweetsAux (maxDate : Int) (ec : Nat) (minID : Int) (cursor : Cursor) :
    List FetchResult → LoadResult
  | [] => ⟨[], [], [], false, ec, minID, cursor⟩
  | FetchResult.err :: rest =>
      if maxErrorCount ≤ ec + 1 then
        ⟨[], [cursor], [], true, ec + 1, minID, cursor⟩
      else
        let r := loadTweetsAux maxDate (ec + 1) minID cursor rest
        ⟨r.emitted, cursor :: r.callCursors, r.visited, r.closed,
          r.finalErr, r.finalMin, r.finalCursor⟩
  | FetchResult.ok tweets :: rest =>
      if tweets.isEmpty then
        ⟨[], [cursor], [], true, ec, minID, cursor⟩
      else
        let m := processPage minID tweets
        let r := loadTweetsAux maxDate 0 (m - 1) (Cursor.maxId (m - 1)) rest
        ⟨tweets.filter (fun t => allowTweet t maxDate) ++ r.emitted,
          cursor :: r.callCursors, tweets ++ r.visited, r.closed,
          r.finalErr, r.finalMin, r.finalCursor⟩

/-- `loadTweets` from twterminator.go, from its initial state:
`errorCount = 0`, `minID = 0`, no `max_id` parameter set. -/
def loadTweets (maxDate : Int) (script : List FetchResult) : LoadResult :=
  loadTweetsAux maxDate 0 0 Cursor.unset script

/-- Glue two run outcomes: the observable events of the first followed by
those of the second, with the second's termination data. -/
def mergeRes (a b : LoadResult) : LoadResult :=
  ⟨a.emitted ++ b.emitted, a.callCursors ++ b.callCursors, a.visited ++ b.visited,
    b.closed, b.finalErr, b.finalMin, b.finalCursor⟩

/-- Trace composition: running the loop on `s1 ++ s2` either breaks inside
`s1` (and `s2` is never consulted), or exhausts `s1` and continues on `s2`
from the loop state `s1` left behind. -/
theorem loadTweetsAux_append (md : Int) :
    ∀ (s1 : List FetchResult) (ec : Nat) (m : Int) (c : Cursor)
      (s2 : List FetchResult),
      loadTweetsAux md ec m c (s1 ++ s2) =
        if (loadTweetsAux md ec m c s1).closed then loadTweetsAux md ec m c s1
        else
          mergeRes (loadTweetsAux md ec m c s1)
            (loadTweetsAux md (loadTweetsAux md ec m c s1).finalErr
              (loadTweetsAux md ec m c s1).finalMin
              (loadTweetsAux md ec m c s1).finalCursor s2) := by
  intro s1
  induction s1 with
  | nil =>
      intro ec m c s2
      simp [loadTweetsAux, mergeRes]
  | cons hd tl ih =>
      intro ec m c s2
      cases hd with
      | err =>
          by_cases h3 : maxErrorCount ≤ ec + 1
          · simp [loadTweetsAux, h3]
          · by_cases hcl : (loadTweetsAux md (ec + 1) m c tl).closed
            · simp [loadTweetsAux, h3, ih, hcl, mergeRes]
            · simp [loadTweetsAux, h3, ih, hcl, mergeRes]
      | ok ts =>
          by_cases hts : ts.isEmpty
          · simp [loadTweetsAux, hts]
          · by_cases hcl : (loadTweetsAux md 0 (processPage m ts - 1)
                (Cursor.maxId (processPage m ts - 1)) tl).closed
            · simp [loadTweetsAux, hts, ih, hcl, mergeRes]
            · simp [loadTweetsAux, hts, ih, hcl, mergeRes]

/-- From a fresh failure counter, three consecutive fetch errors make exactly
three fetch calls with the same cursor, emit nothing, and break (the rest of
the script is never consulted). -/
theorem loadTweetsAux_three_errors (md m : Int) (c : Cursor)
    (rest : List FetchResult) :
    loadTweetsAux md 0 m c
        (FetchResult.err :: FetchResult.err :: FetchResult.err :: rest) =
      ⟨[], [c, c, c], [], true, 3, m, c⟩ := by
  rfl

/-- Running the loop over a script of non-empty successful pages: the loop
does not break, emits exactly the allowed tweets of the pages in order,
visits every tweet of every page once, makes one fetch call per page, and
leaves the failure counter at 0 (at its entry value if there were no pages).
-/
theorem loadTweetsAux_goodPages (md : Int) :
    ∀ (pages : List (List GoTweet)) (ec : Nat) (m : Int) (c : Cursor),
      (∀ p ∈ pages, p ≠ []) →
      (loadTweetsAux md ec m c (pages.map FetchResult.ok)).closed = false ∧
      (loadTweetsAux md ec m c (pages.map FetchResult.ok)).emitted =
        pages.flatten.filter (fun t => allowTweet t md) ∧
      (loadTweetsAux md ec m c (pages.map FetchResult.ok)).visited =
        pages.flatten ∧
      (loadTweetsAux md ec m c (pages.map FetchResult.ok)).callCursors.length =
        pages.length ∧
      (loadTweetsAux md ec m c (pages.map FetchResult.ok)).finalErr =
        (if pages = [] then ec else 0) := by
  intro pages
  induction pages with
  | nil =>
      intro ec m c _
      simp [loadTweetsAux]
  | cons p ps ih =>
      intro ec m c hne
      have hp : p ≠ [] := hne p (List.mem_cons_self p ps)
      have hps : ∀ q ∈ ps, q ≠ [] := fun q hq => hne q (List.mem_cons_of_mem p hq)
      have hemp : p.isEmpty = false := by
        cases p with
        | nil => exact absurd rfl hp
        | cons t ts => rfl
      have ihx := ih 0 (processPage m p - 1) (Cursor.maxId (processPage m p - 1)) hps
      simp [loadTweetsAux, hemp, ihx.1, ihx.2.1, ihx.2.2.1, ihx.2.2.2.1,
        ihx.2.2.2.2, List.filter_append]

/-- C1.  The claim states that an item whose creation-timestamp string fails
to parse is treated as "not before the cutoff", i.e. `allowTweet` returns
`false`.  On the code, the discarded parse error leaves the zero `time.Time`,
which IS before any cutoff computed from the current time, so `allowTweet`
returns `true`: this closed counterexample exhibits a tweet with unparseable
timestamp and a cutoff after the zero instant on which the filter returns
`true`, refuting the claim. -/
theorem c1_counterexample :
    (GoTweet.mk 1 none).createdAt = none ∧
      goZeroTime < 7 ∧ allowTweet ⟨1, none⟩ 7 = true := by
  decide

/-- C1 (amended).  For every item whose creation-timestamp string fails to
parse, `allowTweet` treats the item as created at the zero time: it returns
`true` iff the cutoff is after the zero instant — in particular `true` (and
the item IS emitted) for every cutoff computed from the current time. -/
theorem c1_parse_failure_zero_time (tw : GoTweet) (maxDate : Int)
    (h : tw.createdAt = none) :
    allowTweet tw maxDate = true ↔ goZeroTime < maxDate := by
  simp [allowTweet, parsedCreatedAt, h]

/-- C1 witness. -/
theorem c1_parse_failure_zero_time_witness :
    allowTweet ⟨2, none⟩ 7 = true ↔ goZeroTime < 7 :=
  c1_parse_failure_zero_time ⟨2, none⟩ 7 rfl

/-- C5.  For every item with a parseable creation timestamp and every cutoff,
`allowTweet` returns `true` iff the parsed instant is strictly before the
cutoff: `true` for `createdAt < cutoff`, `false` for `createdAt ≥ cutoff`
(including equality). -/
theorem c5_filter_strictly_before (tw : GoTweet) (t maxDate : Int)
    (h : tw.createdAt = some t) :
    allowTweet tw maxDate = true ↔ t < maxDate := by
  simp [allowTweet, parsedCreatedAt, h]

/-- C5 witness. -/
theorem c5_filter_strictly_before_witness :
    (allowTweet ⟨3, some 5⟩ 7 = true ↔ (5 : Int) < 7) ∧
      (allowTweet ⟨3, some 7⟩ 7 = true ↔ (7 : Int) < 7) :=
  ⟨c5_filter_strictly_before ⟨3, some 5⟩ 5 7 rfl,
    c5_filter_strictly_before ⟨3, some 7⟩ 7 7 rfl⟩

/-- C7.  If the fetch function returns a successful empty page, the loop
breaks and the output stream is closed, whatever the prior consecutive
failure count (any count `< 3` — the only counts at which the loop is still
running): exactly one more fetch call is made, nothing more is emitted, and
the rest of the script is never consulted. -/
theorem c7_empty_page_terminates (md m : Int) (ec : Nat) (c : Cursor)
    (rest : List FetchResult) (h : ec < maxErrorCount) :
    loadTweetsAux md ec m c (FetchResult.ok [] :: rest) =
      ⟨[], [c], [], true, ec, m, c⟩ := by
  simp [loadTweetsAux]

/-- C7 witness. -/
theorem c7_empty_page_terminates_witness :
    (0 < maxErrorCount ∧
      loadTweetsAux 5 0 0 Cursor.unset [FetchResult.ok [], FetchResult.err] =
        ⟨[], [Cursor.unset], [], true, 0, 0, Cursor.unset⟩) ∧
    (2 < maxErrorCount ∧
      loadTweetsAux 5 2 9 (Cursor.maxId 8) [FetchResult.ok []] =
        ⟨[], [Cursor.maxId 8], [], true, 2, 9, Cursor.maxId 8⟩) :=
  ⟨⟨by decide, c7_empty_page_terminates 5 0 0 Cursor.unset [FetchResult.err]
      (by decide)⟩,
    ⟨by decide, c7_empty_page_terminates 5 9 2 (Cursor.maxId 8) [] (by decide)⟩⟩

/-- C4.  Three consecutive fetch errors terminate the paginator.  Part (a):
after any run of non-empty successful pages, a script continuing with three
errors makes exactly three more fetch calls, all with the same (unchanged)
cursor, then closes the stream; the emitted items are exactly the allowed
items of the successful pages, and the remainder of the script is never
consulted (the result does not depend on `rest`).  Part (b): a successful
non-empty fetch makes the run independent of the prior consecutive-failure
count (the counter is reset to zero).  Part (c): an error below the
threshold causes an immediate retry with the same cursor and an incremented
counter. -/
theorem c4_error_threshold :
    (∀ (md : Int) (pages : List (List GoTweet)) (rest : List FetchResult),
      (∀ p ∈ pages, p ≠ []) →
      (loadTweets md (pages.map FetchResult.ok ++
          FetchResult.err :: FetchResult.err :: FetchResult.err :: rest)).closed
          = true ∧
      (loadTweets md (pages.map FetchResult.ok ++
          FetchResult.err :: FetchResult.err :: FetchResult.err :: rest)).emitted
          = pages.flatten.filter (fun t => allowTweet t md) ∧
      (loadTweets md (pages.map FetchResult.ok ++
          FetchResult.err :: FetchResult.err :: FetchResult.err :: rest)).callCursors
          = (loadTweets md (pages.map FetchResult.ok)).callCursors ++
            [(loadTweets md (pages.map FetchResult.ok)).finalCursor,
             (loadTweets md (pages.map FetchResult.ok)).finalCursor,
             (loadTweets md (pages.map FetchResult.ok)).finalCursor] ∧
      (loadTweets md (pages.map FetchResult.ok)).callCursors.length =
        pages.length) ∧
    (∀ (md m : Int) (ec : Nat) (c : Cursor) (ts : List GoTweet)
        (rest : List FetchResult), ts ≠ [] →
      loadTweetsAux md ec m c (FetchResult.ok ts :: rest) =
        loadTweetsAux md 0 m c (FetchResult.ok ts :: rest)) ∧
    (∀ (md m : Int) (ec : Nat) (c : Cursor) (rest : List FetchResult),
      ec + 1 < maxErrorCount →
      loadTweetsAux md ec m c (FetchResult.err :: rest) =
        ⟨(loadTweetsAux md (ec + 1) m c rest).emitted,
          c :: (loadTweetsAux md (ec + 1) m c rest).callCursors,
          (loadTweetsAux md (ec + 1) m c rest).visited,
          (loadTweetsAux md (ec + 1) m c rest).closed,
          (loadTweetsAux md (ec + 1) m c rest).finalErr,
          (loadTweetsAux md (ec + 1) m c rest).finalMin,
          (loadTweetsAux md (ec + 1) m c rest).finalCursor⟩) := by
  refine ⟨?_, ?_, ?_⟩
  · intro md pages rest h
    have hg := loadTweetsAux_goodPages md pages 0 0 Cursor.unset h
    have hfe : (loadTweetsAux md 0 0 Cursor.unset
        (pages.map FetchResult.ok)).finalErr = 0 := by
      rw [hg.2.2.2.2]; exact ite_self 0
    have happ := loadTweetsAux_append md (pages.map FetchResult.ok) 0 0
      Cursor.unset
      (FetchResult.err :: FetchResult.err :: FetchResult.err :: rest)
    rw [hfe, loadTweetsAux_three_errors] at happ
    simp only [loadTweets, happ, hg.1, if_false, Bool.false_eq_true, mergeRes]
    refine ⟨by simp, by simp [hg.2.1], by simp, hg.2.2.2.1⟩
  · intro md m ec c ts rest hts
    have hemp : ts.isEmpty = false := by
      cases ts with
      | nil => exact absurd rfl hts
      | cons t tl => rfl
    simp [loadTweetsAux, hemp]
  · intro md m ec c rest hec
    have hle : ¬ maxErrorCount ≤ ec + 1 := Nat.not_le_of_lt hec
    simp [loadTweetsAux, hle]

/-- C4 witness: one successful page of one old tweet, then three errors; the
single allowed item is emitted, three same-cursor calls follow the page
call, and the stream is closed. -/
theorem c4_error_threshold_witness :
    ((∀ p ∈ [[GoTweet.mk 10 (some 1)]], p ≠ []) ∧
      (loadTweets 5 ([[GoTweet.mk 10 (some 1)]].map FetchResult.ok ++
        FetchResult.err :: FetchResult.err :: FetchResult.err ::
          [FetchResult.ok [GoTweet.mk 4 (some 1)]])).emitted =
        [GoTweet.mk 10 (some 1)]) ∧
    ((0 : Nat) + 1 < maxErrorCount ∧
      loadTweetsAux 5 0 0 Cursor.unset [FetchResult.err] =
        ⟨(loadTweetsAux 5 1 0 Cursor.unset []).emitted,
          Cursor.unset :: (loadTweetsAux 5 1 0 Cursor.unset []).callCursors,
          (loadTweetsAux 5 1 0 Cursor.unset []).visited,
          (loadTweetsAux 5 1 0 Cursor.unset []).closed,
          (loadTweetsAux 5 1 0 Cursor.unset []).finalErr,
          (loadTweetsAux 5 1 0 Cursor.unset []).finalMin,
          (loadTweetsAux 5 1 0 Cursor.unset []).finalCursor⟩) ∧
    (([GoTweet.mk 10 (some 1)] : List GoTweet) ≠ [] ∧
      loadTweetsAux 5 7 2 Cursor.unset
          [FetchResult.ok [GoTweet.mk 10 (some 1)]] =
        loadTweetsAux 5 0 2 Cursor.unset
          [FetchResult.ok [GoTweet.mk 10 (some 1)]]) := by
  refine ⟨⟨by decide, ?_⟩, ⟨by decide, ?_⟩, ⟨by decide, ?_⟩⟩
  · have := (c4_error_threshold.1 5 [[GoTweet.mk 10 (some 1)]]
      [FetchResult.ok [GoTweet.mk 4 (some 1)]] (by decide)).2.1
    rw [this]; decide
  · exact c4_error_threshold.2.2 5 0 0 Cursor.unset [] (by decide)
  · exact c4_error_threshold.2.1 5 2 7 Cursor.unset [GoTweet.mk 10 (some 1)]
      [] (by decide)

/-- C8.  Within one category, the items sent on the output stream are exactly
the items of the fetched pages in discovery order — pages in fetch order,
within each page in returned order — with the non-allowed items removed,
i.e. the allow-filter of the page concatenation. -/
theorem c8_discovery_order (md : Int) (pages : List (List GoTweet))
    (h : ∀ p ∈ pages, p ≠ []) :
    (loadTweets md
        (pages.map FetchResult.ok ++ [FetchResult.ok []])).emitted =
      pages.flatten.filter (fun t => allowTweet t md) := by
  have hg := loadTweetsAux_goodPages md pages 0 0 Cursor.unset h
  have happ := loadTweetsAux_append md (pages.map FetchResult.ok) 0 0
    Cursor.unset [FetchResult.ok []]
  have hstop : ∀ (ec : Nat) (m : Int) (c : Cursor),
      loadTweetsAux md ec m c [FetchResult.ok []] = ⟨[], [c], [], true, ec, m, c⟩ :=
    fun ec m c => by simp [loadTweetsAux]
  rw [hstop] at happ
  simp only [loadTweets, happ, hg.1, Bool.false_eq_true, if_false, mergeRes]
  simp [hg.2.1]

/-- C8 witness: the spec's end-to-end scenario, with `now = 1000` model time
units, a day of 1 unit, cutoff `now − 7`, and one page of three items created
at `now − 1`, `now − 10`, `now − 8`: exactly the latter two are emitted, in
discovery order (not sorted by age). -/
theorem c8_discovery_order_witness :
    (∀ p ∈ [[GoTweet.mk 103 (some 999), GoTweet.mk 102 (some 990),
        GoTweet.mk 101 (some 992)]], p ≠ []) ∧
    (loadTweets 993
        ([[GoTweet.mk 103 (some 999), GoTweet.mk 102 (some 990),
            GoTweet.mk 101 (some 992)]].map FetchResult.ok ++
          [FetchResult.ok []])).emitted =
      [GoTweet.mk 102 (some 990), GoTweet.mk 101 (some 992)] := by
  refine ⟨by decide, ?_⟩
  rw [c8_discovery_order 993
    [[GoTweet.mk 103 (some 999), GoTweet.mk 102 (some 990),
      GoTweet.mk 101 (some 992)]] (by decide)]
  decide

/-- Minimum identifier of a page (0 for an empty page, which never reaches
the page loop). -/
def pageMinId : List GoTweet → Int
  | [] => 0
  | t :: ts => (ts.map GoTweet.id).foldl min t.id

theorem foldl_min_comm (l : List Int) :
    ∀ (x y : Int), l.foldl min (min x y) = min x (l.foldl min y) := by
  induction l with
  | nil => intro x y; rfl
  | cons a l ih =>
      intro x y
      simp only [List.foldl_cons]
      rw [min_assoc, ih]

theorem foldl_min_pos (l : List Int) :
    ∀ (x : Int), 0 < x → (∀ a ∈ l, 0 < a) → 0 < l.foldl min x := by
  induction l with
  | nil => intro x hx _; exact hx
  | cons a l ih =>
      intro x hx hl
      simp only [List.foldl_cons]
      exact ih (min x a) (lt_min hx (hl a (List.mem_cons_self a l)))
        (fun b hb => hl b (List.mem_cons_of_mem a hb))

theorem updateMin_eq_min (m id : Int) (hm : m ≠ 0) : updateMin m id = min m id := by
  unfold updateMin
  rcases lt_or_le id m with h | h
  · rw [if_pos (Or.inr h), min_eq_right (le_of_lt h)]
  · rw [if_neg (by push_neg; exact ⟨hm, h⟩), min_eq_left h]

theorem processPage_pos_eq (ts : List GoTweet) :
    ∀ (m : Int), 0 < m → (∀ t ∈ ts, 0 < t.id) →
      processPage m ts = (ts.map GoTweet.id).foldl min m := by
  induction ts with
  | nil => intro m _ _; rfl
  | cons t ts ih =>
      intro m hm hpos
      have ht : 0 < t.id := hpos t (List.mem_cons_self t ts)
      have hts : ∀ u ∈ ts, 0 < u.id :=
        fun u hu => hpos u (List.mem_cons_of_mem t hu)
      simp only [processPage, List.foldl_cons, List.map_cons]
      rw [show updateMin m t.id = min m t.id from
        updateMin_eq_min m t.id (ne_of_gt hm)]
      exact ih (min m t.id) (lt_min hm ht) hts

theorem pageMinId_pos (p : List GoTweet) (hne : p ≠ [])
    (hpos : ∀ t ∈ p, 0 < t.id) : 0 < pageMinId p := by
  cases p with
  | nil => exact absurd rfl hne
  | cons t ts =>
      exact foldl_min_pos (ts.map GoTweet.id) t.id
        (hpos t (List.mem_cons_self t ts))
        (fun a ha => by
          obtain ⟨u, hu, rfl⟩ := List.mem_map.mp ha
          exact hpos u (List.mem_cons_of_mem t hu))

theorem processPage_zero_eq (p : List GoTweet) (hne : p ≠ [])
    (hpos : ∀ t ∈ p, 0 < t.id) : processPage 0 p = pageMinId p := by
  cases p with
  | nil => exact absurd rfl hne
  | cons t ts =>
      have ht : 0 < t.id := hpos t (List.mem_cons_self t ts)
      have hts : ∀ u ∈ ts, 0 < u.id :=
        fun u hu => hpos u (List.mem_cons_of_mem t hu)
      simp only [processPage, List.foldl_cons]
      rw [show updateMin 0 t.id = t.id by unfold updateMin; rw [if_pos (Or.inl rfl)]]
      exact processPage_pos_eq ts t.id ht hts

theorem processPage_le_eq (p : List GoTweet) (M : Int) (hne : p ≠ [])
    (hpos : ∀ t ∈ p, 0 < t.id) (hM : 0 < M) (hle : pageMinId p ≤ M) :
    processPage M p = pageMinId p := by
  cases p with
  | nil => exact absurd rfl hne
  | cons t ts =>
      have ht : 0 < t.id := hpos t (List.mem_cons_self t ts)
      have hts : ∀ u ∈ ts, 0 < u.id :=
        fun u hu => hpos u (List.mem_cons_of_mem t hu)
      simp only [processPage, List.foldl_cons]
      rw [show updateMin M t.id = min M t.id from
        updateMin_eq_min M t.id (ne_of_gt hM)]
      rw [show (ts.foldl (fun m u => updateMin m u.id) (min M t.id)) =
          processPage (min M t.id) ts from rfl]
      rw [processPage_pos_eq ts (min M t.id) (lt_min hM ht) hts]
      rw [foldl_min_comm]
      exact min_eq_right (by simpa [pageMinId] using hle)

theorem pageMinId_append (p q : List GoTweet) (hp : p ≠ []) (hq : q ≠ []) :
    pageMinId (p ++ q) = min (pageMinId p) (pageMinId q) := by
  cases p with
  | nil => exact absurd rfl hp
  | cons t ts =>
      cases q with
      | nil => exact absurd rfl hq
      | cons u us =>
          simp only [pageMinId, List.cons_append, List.map_append,
            List.map_cons, List.foldl_append, List.foldl_cons]
          rw [foldl_min_comm]

theorem flatten_ne_nil_of_head (q : List GoTweet) (l : List (List GoTweet))
    (hq : q ≠ []) : (q :: l).flatten ≠ [] := by
  cases q with
  | nil => exact absurd rfl hq
  | cons a as => simp

/-- Invariant induction for the cursor characterization: from a loop state
whose `minID` is either the initial sentinel 0 or positive and at least the
next page's minimum, a script of non-empty pages with strictly decreasing
positive minima followed by an empty page yields one fetch call per page plus
one, with the cursor after page `p` equal to `pageMinId p - 1`. -/
theorem loadTweetsAux_decreasing (md : Int) :
    ∀ (pages : List (List GoTweet)) (M : Int) (c : Cursor),
      (∀ p ∈ pages, p ≠ []) →
      (∀ p ∈ pages, ∀ t ∈ p, 0 < t.id) →
      List.Chain' (fun a b => pageMinId b < pageMinId a) pages →
      (M = 0 ∨ (0 < M ∧ ∀ p, pages.head? = some p → pageMinId p ≤ M)) →
      (loadTweetsAux md 0 M c
          (pages.map FetchResult.ok ++ [FetchResult.ok []])).emitted =
        pages.flatten.filter (fun t => allowTweet t md) ∧
      (loadTweetsAux md 0 M c
          (pages.map FetchResult.ok ++ [FetchResult.ok []])).callCursors =
        c :: pages.map (fun p => Cursor.maxId (pageMinId p - 1)) ∧
      (loadTweetsAux md 0 M c
          (pages.map FetchResult.ok ++ [FetchResult.ok []])).visited =
        pages.flatten ∧
      (loadTweetsAux md 0 M c
          (pages.map FetchResult.ok ++ [FetchResult.ok []])).closed = true := by
  intro pages
  induction pages with
  | nil =>
      intro M c _ _ _ _
      simp [loadTweetsAux]
  | cons p ps ih =>
      intro M c h1 h2 h3 hM
      have hp : p ≠ [] := h1 p (List.mem_cons_self p ps)
      have hppos : ∀ t ∈ p, 0 < t.id := h2 p (List.mem_cons_self p ps)
      have hps1 : ∀ q ∈ ps, q ≠ [] := fun q hq => h1 q (List.mem_cons_of_mem p hq)
      have hps2 : ∀ q ∈ ps, ∀ t ∈ q, 0 < t.id :=
        fun q hq => h2 q (List.mem_cons_of_mem p hq)
      have hmp : processPage M p = pageMinId p := by
        rcases hM with h0 | ⟨hMpos, hhead⟩
        · rw [h0]; exact processPage_zero_eq p hp hppos
        · exact processPage_le_eq p M hp hppos hMpos (hhead p rfl)
      have hpminpos : 0 < pageMinId p := pageMinId_pos p hp hppos
      have h3tail : List.Chain' (fun a b => pageMinId b < pageMinId a) ps :=
        h3.tail
      have hMtail : pageMinId p - 1 = 0 ∨
          (0 < pageMinId p - 1 ∧
            ∀ q, ps.head? = some q → pageMinId q ≤ pageMinId p - 1) := by
        cases ps with
        | nil =>
            rcases (show pageMinId p - 1 = 0 ∨ 0 < pageMinId p - 1 by omega)
              with h | h
            · exact Or.inl h
            · exact Or.inr ⟨h, fun q hq => by simp at hq⟩
        | cons q qs =>
            have hlt : pageMinId q < pageMinId p := (List.chain'_cons.mp h3).1
            have hqpos : 0 < pageMinId q :=
              pageMinId_pos q (hps1 q (List.mem_cons_self q qs))
                (hps2 q (List.mem_cons_self q qs))
            refine Or.inr ⟨by omega, fun r hr => ?_⟩
            simp only [List.head?_cons, Option.some.injEq] at hr
            subst hr
            omega
      have hrec := ih (pageMinId p - 1) (Cursor.maxId (pageMinId p - 1))
        hps1 hps2 h3tail hMtail
      have hemp : p.isEmpty = false := by
        cases p with
        | nil => exact absurd rfl hp
        | cons t ts => rfl
      simp only [List.map_cons, List.cons_append, loadTweetsAux, hemp,
        Bool.false_eq_true, if_false, hmp] at *
      simp [hrec.1, hrec.2.1, hrec.2.2.1, hrec.2.2.2, List.filter_append]

theorem takeFlatten_ne_nil (ps : List (List GoTweet)) (k : Nat)
    (hk : k < ps.length) (h1 : ∀ q ∈ ps, q ≠ []) :
    (ps.take (k + 1)).flatten ≠ [] := by
  cases ps with
  | nil => exact absurd hk (by simp)
  | cons q qs =>
      rw [List.take_succ_cons]
      exact flatten_ne_nil_of_head q (qs.take k)
        (h1 q (List.mem_cons_self q qs))

/-- With pairwise decreasing page minima, the minimum identifier seen across
the first `k + 1` pages is the minimum of page `k`. -/
theorem pageMinId_take (pages : List (List GoTweet)) :
    (∀ p ∈ pages, p ≠ []) →
    List.Pairwise (fun a b => pageMinId b < pageMinId a) pages →
    ∀ (k : Nat) (hk : k < pages.length),
      pageMinId ((pages.take (k + 1)).flatten) =
        pageMinId (pages.get ⟨k, hk⟩) := by
  induction pages with
  | nil => intro _ _ k hk; exact absurd hk (by simp)
  | cons p ps ih =>
      intro h1 hpw k hk
      have hp : p ≠ [] := h1 p (List.mem_cons_self p ps)
      have hps1 : ∀ q ∈ ps, q ≠ [] :=
        fun q hq => h1 q (List.mem_cons_of_mem p hq)
      cases k with
      | zero =>
          simp [List.take_succ_cons]
      | succ k =>
          have hk2 : k < ps.length := by simpa using hk
          have hcons := List.pairwise_cons.mp hpw
          have ihk := ih hps1 hcons.2 k hk2
          rw [List.take_succ_cons, List.flatten_cons,
            pageMinId_append p ((ps.take (k + 1)).flatten) hp
              (takeFlatten_ne_nil ps k hk2 hps1), ihk]
          have hmem : ps.get ⟨k, hk2⟩ ∈ ps := List.get_mem ps k hk2
          have hlt : pageMinId (ps.get ⟨k, hk2⟩) < pageMinId p :=
        hcons.1 (ps.get ⟨k, hk2⟩) hmem
          rw [min_eq_right (le_of_lt hlt)]
          simp [List.get_cons_succ]

/-- C3 (amended).  For every sequence of successful non-empty page fetches
whose items all have positive identifiers and whose per-page minimum
identifiers strictly decrease, the `max_id` cursor values the paginator
passes to the fetch function are: no cursor on the first call, then after
each page exactly `pageMinId p - 1`; these values are strictly decreasing,
they equal (minimum identifier seen so far) − 1 because the minimum seen
across the first `k+1` pages is the minimum of page `k`, and every item of
every page is visited exactly once (the visit trace is the concatenation of
the pages). -/
theorem c3_cursor_seq (md : Int) (pages : List (List GoTweet))
    (h1 : ∀ p ∈ pages, p ≠ [])
    (h2 : ∀ p ∈ pages, ∀ t ∈ p, 0 < t.id)
    (h3 : List.Chain' (fun a b => pageMinId b < pageMinId a) pages) :
    (loadTweets md
        (pages.map FetchResult.ok ++ [FetchResult.ok []])).callCursors =
      Cursor.unset :: pages.map (fun p => Cursor.maxId (pageMinId p - 1)) ∧
    List.Chain' (fun a b => b < a)
      (pages.map (fun p => pageMinId p - 1)) ∧
    (∀ (k : Nat) (hk : k < pages.length),
      pageMinId ((pages.take (k + 1)).flatten) =
        pageMinId (pages.get ⟨k, hk⟩)) ∧
    (loadTweets md
        (pages.map FetchResult.ok ++ [FetchResult.ok []])).visited =
      pages.flatten := by
  have haux := loadTweetsAux_decreasing md pages 0 Cursor.unset h1 h2 h3
    (Or.inl rfl)
  refine ⟨haux.2.1, ?_, ?_, haux.2.2.1⟩
  · rw [List.chain'_map]
    exact h3.imp (fun h => by omega)
  · haveI : IsTrans (List GoTweet) (fun a b => pageMinId b < pageMinId a) :=
      ⟨fun a b c hab hbc => lt_trans hbc hab⟩
    exact pageMinId_take pages h1 (List.chain'_iff_pairwise.mp h3)

/-- C3 counterexample.  The claim as stated quantifies over all pages with
strictly decreasing minima; with an item identifier equal to 0 — the value
the code reserves as the "minID unset" sentinel — the hypothesis holds
(5 > 0) yet the cursor after the second page is `max_id = 2`, not
(minimum identifier seen so far) − 1 = −1: the sentinel comparison
`minID == 0` resets the running minimum mid-page. -/
theorem c3_counterexample :
    pageMinId [GoTweet.mk 0 (some 1), GoTweet.mk 3 (some 1)] <
      pageMinId [GoTweet.mk 5 (some 1)] ∧
    pageMinId ([[GoTweet.mk 5 (some 1)],
        [GoTweet.mk 0 (some 1), GoTweet.mk 3 (some 1)]].flatten) = 0 ∧
    (loadTweets 7
        ([[GoTweet.mk 5 (some 1)],
            [GoTweet.mk 0 (some 1), GoTweet.mk 3 (some 1)]].map
          FetchResult.ok ++ [FetchResult.ok []])).callCursors =
      [Cursor.unset, Cursor.maxId 4, Cursor.maxId 2] ∧
    Cursor.maxId 2 ≠ Cursor.maxId (0 - 1) := by
  decide

/-- C3 witness: two pages with positive identifiers and minima 10 then 4;
the cursors are unset, 9, 3. -/
theorem c3_cursor_seq_witness :
    (∀ p ∈ [[GoTweet.mk 10 (some 1)],
        [GoTweet.mk 4 (some 1), GoTweet.mk 7 (some 1)]], p ≠ []) ∧
    (∀ p ∈ [[GoTweet.mk 10 (some 1)],
        [GoTweet.mk 4 (some 1), GoTweet.mk 7 (some 1)]], ∀ t ∈ p, 0 < t.id) ∧
    List.Chain' (fun a b => pageMinId b < pageMinId a)
      [[GoTweet.mk 10 (some 1)],
        [GoTweet.mk 4 (some 1), GoTweet.mk 7 (some 1)]] ∧
    (loadTweets 7
        ([[GoTweet.mk 10 (some 1)],
            [GoTweet.mk 4 (some 1), GoTweet.mk 7 (some 1)]].map
          FetchResult.ok ++ [FetchResult.ok []])).callCursors =
      [Cursor.unset, Cursor.maxId 9, Cursor.maxId 3] := by
  have hch : List.Chain' (fun a b => pageMinId b < pageMinId a)
      [[GoTweet.mk 10 (some 1)],
        [GoTweet.mk 4 (some 1), GoTweet.mk 7 (some 1)]] :=
    List.chain'_cons.mpr ⟨by decide, List.chain'_singleton _⟩
  refine ⟨by decide, by decide, hch, ?_⟩
  rw [(c3_cursor_seq 7
    [[GoTweet.mk 10 (some 1)], [GoTweet.mk 4 (some 1), GoTweet.mk 7 (some 1)]]
    (by decide) (by decide) hch).1]
  decide

/-- Tweet-type tag constant from twterminator.go. -/
def Tweet : String := "Tweet"

/-- Tweet-type tag constant from twterminator.go. -/
def Like : String := "Like"

/-- A destructive Twitter API call made by `removeTweets`. -/
inductive ApiAction where
  | deleteTweet (id : Int)
  | unfavorite (id : Int)
deriving DecidableEq, Repr

/-- Observable outcome of `removeTweets` draining a stream: the destructive
API calls made in order, the per-item log lines (by tweet id, in order), the
number of API-error log lines, and the number of unknown-type log lines. -/
structure RemoveResult where
  actions : List ApiAction
  itemLogs : List Int
  errorLogs : Nat
  unknownLogs : Nat
deriving DecidableEq, Repr

/-- `removeTweets` from twterminator.go, draining a finished stream whose
content is the list of received tweets, in receipt order.  `xoxo` is the
`-x` commit flag; `apiFails` tells which destructive calls the remote API
answers with an error (such an error is logged and processing continues).
Per tweet: one log line always; then, by tweet-type string comparison and
only when `xoxo` is set, the category's destructive call. -/
def removeTweets (xoxo : Bool) (apiFails : ApiAction → Bool)
    (tweetType : String) : List GoTweet → RemoveResult
  | [] => ⟨[], [], 0, 0⟩
  | tw :: rest =>
      let r := removeTweets xoxo apiFails tweetType rest
      if tweetType = Tweet then
        if xoxo then
          ⟨ApiAction.deleteTweet tw.id :: r.actions, tw.id :: r.itemLogs,
            (if apiFails (ApiAction.deleteTweet tw.id) then 1 else 0) +
              r.errorLogs, r.unknownLogs⟩
        else ⟨r.actions, tw.id :: r.itemLogs, r.errorLogs, r.unknownLogs⟩
      else if tweetType = Like then
        if xoxo then
          ⟨ApiAction.unfavorite tw.id :: r.actions, tw.id :: r.itemLogs,
            (if apiFails (ApiAction.unfavorite tw.id) then 1 else 0) +
              r.errorLogs, r.unknownLogs⟩
        else ⟨r.actions, tw.id :: r.itemLogs, r.errorLogs, r.unknownLogs⟩
      else ⟨r.actions, tw.id :: r.itemLogs, r.errorLogs, r.unknownLogs + 1⟩

/-- C6.  Under dry-run (`-x` not set, `xoxo = false`), the deletion consumer
for either category makes no destructive API call for any received item —
the destructive branch is never taken — while still printing exactly one log
line per item, in receipt order, and no error or unknown-type lines. -/
theorem c6_dry_run_no_destructive_calls (apiFails : ApiAction → Bool)
    (tweetType : String) (items : List GoTweet)
    (h : tweetType = Tweet ∨ tweetType = Like) :
    (removeTweets false apiFails tweetType items).actions = [] ∧
    (removeTweets false apiFails tweetType items).itemLogs =
      items.map GoTweet.id ∧
    (removeTweets false apiFails tweetType items).errorLogs = 0 ∧
    (removeTweets false apiFails tweetType items).unknownLogs = 0 := by
  induction items with
  | nil => simp [removeTweets]
  | cons tw rest ih =>
      rcases h with h | h <;> subst h
      · simp [removeTweets, ih.1, ih.2.1, ih.2.2.1, ih.2.2.2]
      · simp [removeTweets, show Like ≠ Tweet by decide,
          ih.1, ih.2.1, ih.2.2.1, ih.2.2.2]

/-- C6 witness: two items (one with an unparseable timestamp) in the posts
category, with an API oracle that would fail every call: still no actions,
two log lines, no error lines. -/
theorem c6_dry_run_no_destructive_calls_witness :
    (Tweet = Tweet ∨ Tweet = Like) ∧
    (removeTweets false (fun _ => true) Tweet
        [GoTweet.mk 1 (some 3), GoTweet.mk 2 none]).actions = [] ∧
    (removeTweets false (fun _ => true) Tweet
        [GoTweet.mk 1 (some 3), GoTweet.mk 2 none]).itemLogs = [1, 2] := by
  have := c6_dry_run_no_destructive_calls (fun _ => true) Tweet
    [GoTweet.mk 1 (some 3), GoTweet.mk 2 none] (Or.inl rfl)
  exact ⟨Or.inl rfl, this.1, this.2.1⟩

/-- The backlog-day resolution from `main` (lines 231–241): the `-b` flag
overrides the config posts window when strictly positive, the `-l` flag
overrides the config likes window when strictly positive, and a resulting
likes value of zero falls back to the effective posts value.  Returns
(`maxDays`, `maxDaysLikes`). -/
def computeEffectiveDays (cfgDays cfgDaysLikes flagBacklog flagLikemax : Int) :
    Int × Int :=
  let maxDays := if flagBacklog > 0 then flagBacklog else cfgDays
  let maxDaysLikes := if flagLikemax > 0 then flagLikemax else cfgDaysLikes
  let maxDaysLikes2 := if maxDaysLikes = 0 then maxDays else maxDaysLikes
  (maxDays, maxDaysLikes2)

/-- The cutoff computation from `main`:
`time.Now().Add(time.Duration(maxDays) * -24 * time.Hour)`, on the
model timeline in nanoseconds. -/
def computeMaxDate (now maxDays : Int) : Int :=
  now + maxDays * (-24) * (3600 * 1000000000)

/-- C9.  The effective likes window is the config `BacklogDaysLikes`,
replaced by the `-l` flag when strictly positive; whenever the resulting
likes value is zero it falls back to the effective posts window, itself the
config `BacklogDays` overridden by the `-b` flag when strictly positive. -/
theorem c9_likes_fallback :
    (∀ cfgB cfgL flagB flagL : Int, 0 < flagL →
      (computeEffectiveDays cfgB cfgL flagB flagL).2 = flagL) ∧
    (∀ cfgB cfgL flagB flagL : Int, flagL ≤ 0 → cfgL ≠ 0 →
      (computeEffectiveDays cfgB cfgL flagB flagL).2 = cfgL) ∧
    (∀ cfgB cfgL flagB flagL : Int, flagL ≤ 0 → cfgL = 0 →
      (computeEffectiveDays cfgB cfgL flagB flagL).2 =
        (computeEffectiveDays cfgB cfgL flagB flagL).1) ∧
    (∀ cfgB cfgL flagB flagL : Int, 0 < flagB →
      (computeEffectiveDays cfgB cfgL flagB flagL).1 = flagB) ∧
    (∀ cfgB cfgL flagB flagL : Int, flagB ≤ 0 →
      (computeEffectiveDays cfgB cfgL flagB flagL).1 = cfgB) := by
  refine ⟨?_, ?_, ?_, ?_, ?_⟩
  · intro cfgB cfgL flagB flagL h
    simp [computeEffectiveDays, h, ne_of_gt h]
  · intro cfgB cfgL flagB flagL h hc
    simp [computeEffectiveDays, not_lt.mpr h, hc]
  · intro cfgB cfgL flagB flagL h hc
    simp [computeEffectiveDays, not_lt.mpr h, hc]
  · intro cfgB cfgL flagB flagL h
    simp [computeEffectiveDays, h]
  · intro cfgB cfgL flagB flagL h
    simp [computeEffectiveDays, not_lt.mpr h]

/-- C9 witness: config (posts 30, likes 0), flags `-b 10`, no `-l`: the
likes window falls back to the posts window, 10. -/
theorem c9_likes_fallback_witness :
    ((0 : Int) ≤ 0 ∧ (0 : Int) = 0 ∧
      (computeEffectiveDays 30 0 10 0).2 = (computeEffectiveDays 30 0 10 0).1) ∧
    ((0 : Int) < 10 ∧ (computeEffectiveDays 30 0 10 0).1 = 10) ∧
    ((0 : Int) < 5 ∧ (computeEffectiveDays 30 7 0 5).2 = 5) ∧
    ((0 : Int) ≤ 0 ∧ (7 : Int) ≠ 0 ∧ (computeEffectiveDays 30 7 0 0).2 = 7) := by
  refine ⟨⟨le_refl 0, rfl, ?_⟩, ⟨by decide, ?_⟩, ⟨by decide, ?_⟩, ⟨le_refl 0, by decide, ?_⟩⟩
  · exact c9_likes_fallback.2.2.1 30 0 10 0 (le_refl 0) rfl
  · exact c9_likes_fallback.2.2.2.1 30 0 10 0 (by decide)
  · exact c9_likes_fallback.1 30 7 0 5 (by decide)
  · exact c9_likes_fallback.2.1 30 7 0 0 (le_refl 0) (by decide)

/-- C10.  With no positive flag overrides and zero (or absent) config values
for both windows, the effective backlog of both categories is 0, the computed
cutoff equals the current time at startup, and every item with a parseable
creation timestamp strictly before that time passes the retention filter —
the entire history becomes eligible for deletion. -/
theorem c10_zero_backlog_deletes_everything
    (cfgB cfgL flagB flagL now : Int)
    (hB : flagB ≤ 0) (hL : flagL ≤ 0) (hcB : cfgB = 0) (hcL : cfgL = 0) :
    (computeEffectiveDays cfgB cfgL flagB flagL).1 = 0 ∧
    (computeEffectiveDays cfgB cfgL flagB flagL).2 = 0 ∧
    computeMaxDate now 0 = now ∧
    (∀ (tw : GoTweet) (t : Int), tw.createdAt = some t → t < now →
      allowTweet tw (computeMaxDate now 0) = true) := by
  refine ⟨?_, ?_, by simp [computeMaxDate], ?_⟩
  · simp [computeEffectiveDays, not_lt.mpr hB, hcB]
  · simp [computeEffectiveDays, not_lt.mpr hB, not_lt.mpr hL, hcB, hcL]
  · intro tw t ht hlt
    have : computeMaxDate now 0 = now := by simp [computeMaxDate]
    rw [this]
    simp [allowTweet, parsedCreatedAt, ht, hlt]

/-- C10 witness: all zero config and flags, `now = 1000`, an item created at
999 passes the filter. -/
theorem c10_zero_backlog_deletes_everything_witness :
    (0 : Int) ≤ 0 ∧ (0 : Int) = 0 ∧
    (computeEffectiveDays 0 0 0 0).1 = 0 ∧
    computeMaxDate 1000 0 = 1000 ∧
    allowTweet ⟨9, some 999⟩ (computeMaxDate 1000 0) = true := by
  have := c10_zero_backlog_deletes_everything 0 0 0 0 1000
    (le_refl 0) (le_refl 0) rfl rfl
  exact ⟨le_refl 0, rfl, this.1, this.2.2.1,
    this.2.2.2 ⟨9, some 999⟩ 999 rfl (by decide)⟩

/-- Program counter of a `loadTweets` goroutine, after the fetch script has
determined the items it will send: sending its remaining items, past
`close(stream)` and about to run `latch.Done()`, or exited. -/
inductive ProdPC where
  | pSend
  | pDone
  | pExit
deriving DecidableEq, Repr

/-- Program counter of a `removeTweets` goroutine: about to execute its
first statement `latch.Add(1)`, in the `range` receive loop, past the loop
(channel closed and drained) and about to run `latch.Done()`, or exited. -/
inductive ConsPC where
  | cAdd
  | cRecv
  | cDone
  | cExit
deriving DecidableEq, Repr

/-- The state of one category pipeline: the items its paginator still has to
send on the unbuffered channel, both goroutines' program counters, whether
the channel has been closed, and the items the consumer has received. -/
structure PipeState where
  sendQueue : List GoTweet
  prodPC : ProdPC
  chClosed : Bool
  consPC : ConsPC
  received : List GoTweet
deriving DecidableEq, Repr

/-- Global state of `main`'s concurrency: the two pipelines (posts, likes),
the `latch` WaitGroup counter, and whether `latch.Wait()` has returned.  The
initial counter is 2, from `latch.Add(2)` in `main` before the four
goroutines start. -/
structure SysState where
  posts : PipeState
  likes : PipeState
  wg : Int
  mainDone : Bool
deriving DecidableEq, Repr

/-- Select one pipeline (`false` = posts, `true` = likes). -/
def getPipe (s : SysState) (w : Bool) : PipeState :=
  if w then s.likes else s.posts

/-- Replace one pipeline. -/
def setPipe (s : SysState) (w : Bool) (p : PipeState) : SysState :=
  if w then { s with likes := p } else { s with posts := p }

/-- One atomic step of an interleaved execution of `main`'s four goroutines
and its `latch.Wait()`.  A `send` is the rendezvous on the unbuffered
channel (both sides must be ready); `close` is `close(stream)` once the
paginator has nothing left to send; `prodSignal`/`consSignal` are the
`latch.Done()` calls; `consRegister` is the `latch.Add(1)` at the top of
`removeTweets`; `consFinish` is the `range` loop ending once the channel is
closed and drained; `mainReturn` is `latch.Wait()` returning, enabled
exactly when the counter is 0. -/
inductive SysStep : SysState → SysState → Prop where
  | send (s : SysState) (w : Bool) (tw : GoTweet) (q : List GoTweet) :
      (getPipe s w).prodPC = ProdPC.pSend →
      (getPipe s w).sendQueue = tw :: q →
      (getPipe s w).consPC = ConsPC.cRecv →
      SysStep s (setPipe s w { getPipe s w with
        sendQueue := q, received := (getPipe s w).received ++ [tw] })
  | close (s : SysState) (w : Bool) :
      (getPipe s w).prodPC = ProdPC.pSend →
      (getPipe s w).sendQueue = [] →
      SysStep s (setPipe s w { getPipe s w with
        chClosed := true, prodPC := ProdPC.pDone })
  | prodSignal (s : SysState) (w : Bool) :
      (getPipe s w).prodPC = ProdPC.pDone →
      SysStep s { setPipe s w { getPipe s w with prodPC := ProdPC.pExit } with
        wg := s.wg - 1 }
  | consRegister (s : SysState) (w : Bool) :
      (getPipe s w).consPC = ConsPC.cAdd →
      SysStep s { setPipe s w { getPipe s w with consPC := ConsPC.cRecv } with
        wg := s.wg + 1 }
  | consFinish (s : SysState) (w : Bool) :
      (getPipe s w).consPC = ConsPC.cRecv →
      (getPipe s w).chClosed = true →
      (getPipe s w).sendQueue = [] →
      SysStep s (setPipe s w { getPipe s w with consPC := ConsPC.cDone })
  | consSignal (s : SysState) (w : Bool) :
      (getPipe s w).consPC = ConsPC.cDone →
      SysStep s { setPipe s w { getPipe s w with consPC := ConsPC.cExit } with
        wg := s.wg - 1 }
  | mainReturn (s : SysState) :
      s.mainDone = false →
      s.wg = 0 →
      SysStep s { s with mainDone := true }

/-- The system at startup: `latch` at 2 from `main`'s `latch.Add(2)`, each
paginator holding the items its fetch script makes it emit, each consumer
not yet at its `latch.Add(1)`. -/
def initSys (e0 e1 : List GoTweet) : SysState :=
  ⟨⟨e0, ProdPC.pSend, false, ConsPC.cAdd, []⟩,
    ⟨e1, ProdPC.pSend, false, ConsPC.cAdd, []⟩, 2, false⟩

/-- C2 refutation.  The claim says `main` never returns from `latch.Wait()`
until every consumer has signaled completion.  Because `removeTweets` runs
its `latch.Add(1)` inside the goroutine, there is an interleaving — here:
both fetchers return an empty first page, both `loadTweets` goroutines
close their channels and run `latch.Done()` before either `removeTweets`
goroutine is scheduled — in which the counter reaches 0 and `latch.Wait()`
returns while neither consumer has even registered, let alone signaled.
The producers' item lists are exactly what `loadTweets` emits on an
empty-first-page script. -/
theorem c2_wait_returns_before_consumers :
    ∃ s : SysState,
      Relation.ReflTransGen SysStep
        (initSys (loadTweets 7 [FetchResult.ok []]).emitted
          (loadTweets 7 [FetchResult.ok []]).emitted) s ∧
      s.mainDone = true ∧
      s.posts.consPC = ConsPC.cAdd ∧ s.likes.consPC = ConsPC.cAdd := by
  refine ⟨⟨⟨[], ProdPC.pExit, true, ConsPC.cAdd, []⟩,
    ⟨[], ProdPC.pExit, true, ConsPC.cAdd, []⟩, 0, true⟩, ?_, rfl, rfl, rfl⟩
  have h0 : initSys (loadTweets 7 [FetchResult.ok []]).emitted
      (loadTweets 7 [FetchResult.ok []]).emitted =
      ⟨⟨[], ProdPC.pSend, false, ConsPC.cAdd, []⟩,
        ⟨[], ProdPC.pSend, false, ConsPC.cAdd, []⟩, 2, false⟩ := rfl
  rw [h0]
  refine Relation.ReflTransGen.head (SysStep.close _ false rfl rfl) ?_
  refine Relation.ReflTransGen.head (SysStep.prodSignal _ false rfl) ?_
  refine Relation.ReflTransGen.head (SysStep.close _ true rfl rfl) ?_
  refine Relation.ReflTransGen.head (SysStep.prodSignal _ true rfl) ?_
  refine Relation.ReflTransGen.head (SysStep.mainReturn _ rfl rfl) ?_
  exact Relation.ReflTransGen.refl
